import Mathlib

/-!
Verification development for the oh-my-claudecode team runtime.

The repository ships the Team Runtime (startTeam, monitorTeam,
watchdogCliWorkers, assignTask, shutdownTeam, resumeTeam,
spawnWorkerForTask) as a compiled declaration file plus its tests; the
orchestration logic itself is therefore embedded here from the design
document (definitions marked "Modelled from the spec"), while leaf
utilities whose sources are present (cli-detection) are embedded
directly from the source.
-/

namespace OMC

/-! ## Data model (spec section 3, dist/team/runtime.d.ts) -/

/-- Task status: one of pending, in_progress, completed, failed. -/
inductive TaskStatus where
  | pending
  | in_progress
  | completed
  | failed
deriving DecidableEq, Repr

/-- One unit of work, as persisted in the Task Store:
`\x7bid, subject, description, status, owner\x7d`. -/
structure Task where
  id : String
  subject : String
  description : String
  status : TaskStatus
  owner : Option String
deriving DecidableEq, Repr

/-- One spawned agent process bound to one pane, as tracked in the
in-memory roster of active workers. -/
structure ActiveWorker where
  name : String
  paneId : Nat
  currentTaskId : Option String
  interopMode : Option String
  lastHeartbeatAt : Nat
deriving DecidableEq, Repr

/-- The coordinator-visible state of one team: the Task Store contents,
the in-memory active-worker roster, the warning log and the per-worker
inbox writes. -/
structure TeamState where
  tasks : List Task
  activeWorkers : List ActiveWorker
  warnings : List String
  inboxes : List (String × String)
deriving DecidableEq, Repr

/-! ## detectCli (from the source, cli-detection re-export file) -/

/-- Result record of detectCli: `\x7bavailable, version?, path?\x7d`. -/
structure CliInfo where
  available : Bool
  version : Option String
  path : Option String
deriving DecidableEq, Repr

/-- Outcome of a `spawnSync` call: either it returns a result object with
a possibly-null exit status and possibly-absent stdout, or it throws. -/
inductive SpawnOutcome where
  | result (status : Option Int) (stdout : Option String)
  | thrown
deriving DecidableEq, Repr

/-- The external effects detectCli depends on: binary-path resolution
(`none` models `resolveCliBinaryPath` throwing) and the `--version`
probe via `spawnSync`. -/
structure CliProbeEnv where
  resolveCliBinaryPath : String → Option String
  spawnVersion : String → SpawnOutcome

/-- Embedding of `detectCli` from the source: resolve the binary path,
run it with `--version`; on exit status 0 report available with trimmed
stdout as version and the resolved path; on a non-zero or missing
status, or any thrown exception, report `\x7bavailable: false\x7d`. -/
def detectCli (env : CliProbeEnv) (binary : String) : CliInfo :=
  match env.resolveCliBinaryPath binary with
  | none => { available := false, version := none, path := none }
  | some resolvedPath =>
    match env.spawnVersion resolvedPath with
    | .thrown => { available := false, version := none, path := none }
    | .result status stdout =>
      if status = some 0 then
        { available := true
          version := stdout.map (fun s => s.trim)
          path := some resolvedPath }
      else { available := false, version := none, path := none }

/-! ## Worker Lifecycle (spec section 4.2) -/

/-- Spawn errors: exhausted work, or a propagated Pane Multiplexer
failure. -/
inductive SpawnError where
  | noPendingTask
  | paneFailed (msg : String)
deriving DecidableEq, Repr

/-- The warning logged when interop bootstrap fails for a worker: it
names the worker and the task and announces the fail-open outcome. -/
def spawnWarning (workerName taskId : String) : String :=
  "interop bootstrap failed for worker " ++
    (workerName ++ (" on task " ++ (taskId ++ ", continuing without interop")))

/-- Set the first-created pending task to in_progress with the given
owner; leave all other tasks untouched. -/
def claimTask (taskId workerName : String) (ts : List Task) : List Task :=
  ts.map fun u =>
    if u.id = taskId then { u with status := .in_progress, owner := some workerName } else u

/-- Modelled from the spec: `spawnWorkerForTask` (src/team/runtime.ts is
not among the repository files; only dist/team/runtime.d.ts and its
tests are). Steps, in the spec order: (1) resolve the next pending
task or fail with NoPendingTask; (2) atomically claim it
(in_progress, owner) before the pane starts; (3) pane creation, whose
outcome `paneResult` is the multiplexer collaborator input — a failure
is propagated but the claim is not rolled back; (4) if `interopMode`
requires bridging and bootstrap throws, log one warning naming the
worker and task, and neither roll back nor fail (fail-open);
(5) record the worker as active and return its pane id. -/
def spawnWorkerForTask (s : TeamState) (workerName : String)
    (interopMode : Option String) (paneResult : Except String Nat)
    (bootstrapThrows : Bool) (startTimeMs : Nat) :
    Except SpawnError Nat × TeamState :=
  match s.tasks.find? (fun t => t.status = .pending) with
  | none => (.error .noPendingTask, s)
  | some t =>
    let s2 : TeamState := { s with tasks := claimTask t.id workerName s.tasks }
    match paneResult with
    | .error m => (.error (.paneFailed m), s2)
    | .ok pane =>
      let s3 : TeamState :=
        if interopMode.isSome && bootstrapThrows then
          { s2 with warnings := spawnWarning workerName t.id :: s2.warnings }
        else s2
      let w : ActiveWorker :=
        { name := workerName, paneId := pane, currentTaskId := some t.id
          interopMode := interopMode, lastHeartbeatAt := startTimeMs }
      (.ok pane, { s3 with activeWorkers := w :: s3.activeWorkers })

/-! ## Watchdog (spec section 4.3) -/

/-- The external observations one Watchdog tick depends on: pane
liveness, per-pane last-activity time, the clock, the stall threshold,
and the two mutually exclusive completion-detection channels (local
sentinel file, interop bridge poll). -/
structure PollEnv where
  paneAlive : Nat → Bool
  lastActivityAt : Nat → Nat
  now : Nat
  stallThresholdMs : Nat
  sentinel : String → Option Bool
  bridgeCompletion : String → Option Bool

/-- Completion detection for one worker: bridged workers are resolved by
polling the bridge, unbridged ones by the local sentinel; the two paths
are mutually exclusive, selected by interopMode. `some b` means the
task finished, successfully iff `b`. -/
def completionOf (env : PollEnv) (w : ActiveWorker) : Option Bool :=
  match w.interopMode with
  | some _ => env.bridgeCompletion w.name
  | none => env.sentinel w.name

/-- Modelled from the spec: per-task effect of one Watchdog tick
(src/team/runtime.ts is not among the repository files). The worker
claiming the task (by its currentTaskId mirror) decides the task's
fate: dead pane reclaims it to pending with owner cleared; a
completion result moves it to completed or failed with owner cleared;
otherwise it is untouched. -/
def tickTask (env : PollEnv) (ws : List ActiveWorker) (t : Task) : Task :=
  match ws.find? (fun w => w.currentTaskId = some t.id) with
  | none => t
  | some w =>
    if env.paneAlive w.paneId then
      match completionOf env w with
      | some ok =>
        { t with status := if ok then .completed else .failed, owner := none }
      | none => t
    else { t with status := .pending, owner := none }

/-- Modelled from the spec: per-worker effect of one Watchdog tick on a
surviving (pane-alive) worker: the heartbeat advances to the pane's
latest observed activity, and a detected completion frees the worker
(currentTaskId cleared) for reassignment. -/
def tickWorker (env : PollEnv) (w : ActiveWorker) : ActiveWorker :=
  if w.currentTaskId.isSome && (completionOf env w).isSome then
    { w with lastHeartbeatAt := max w.lastHeartbeatAt (env.lastActivityAt w.paneId)
             currentTaskId := none }
  else
    { w with lastHeartbeatAt := max w.lastHeartbeatAt (env.lastActivityAt w.paneId) }

/-- Modelled from the spec: one Watchdog tick (src/team/runtime.ts is
not among the repository files). One cooperative pass over all active
workers: dead-pane workers have their in_progress task reclaimed to
pending and are dropped from the active roster; completions are
applied to the Task Store and the worker freed; stalls are
informational only and mutate nothing (they surface in the snapshot).
The completion-callback plumbing is not modelled: it does not touch
team state. -/
def watchdogTick (env : PollEnv) (s : TeamState) : TeamState :=
  { s with
    tasks := s.tasks.map (tickTask env s.activeWorkers)
    activeWorkers :=
      (s.activeWorkers.filter (fun w => env.paneAlive w.paneId)).map (tickWorker env) }

/-! ## Snapshot (monitorTeam, spec section 4.4) -/

/-- Per-worker entry of a team snapshot. -/
structure WorkerStatus where
  workerName : String
  alive : Bool
  stalled : Bool
  currentTaskId : Option String
deriving DecidableEq, Repr

/-- Aggregate task counts per status. -/
structure TaskCounts where
  pending : Nat
  inProgress : Nat
  completed : Nat
  failed : Nat
deriving DecidableEq, Repr

/-- Derived, read-only team snapshot. -/
structure TeamSnapshot where
  workers : List WorkerStatus
  taskCounts : TaskCounts
  deadWorkers : List String
deriving DecidableEq, Repr

/-- Count tasks per status. -/
def taskCounts (ts : List Task) : TaskCounts :=
  { pending := ts.countP (fun t => t.status = .pending)
    inProgress := ts.countP (fun t => t.status = .in_progress)
    completed := ts.countP (fun t => t.status = .completed)
    failed := ts.countP (fun t => t.status = .failed) }

/-- Point-in-time status of one worker: alive iff its pane is alive;
stalled iff alive but the pane has shown no new activity for longer
than the stall threshold. -/
def workerStatusOf (env : PollEnv) (w : ActiveWorker) : WorkerStatus :=
  let alive := env.paneAlive w.paneId
  { workerName := w.name
    alive := alive
    stalled := alive && decide (env.lastActivityAt w.paneId + env.stallThresholdMs < env.now)
    currentTaskId := w.currentTaskId }

/-- Modelled from the spec: `monitorTeam` (src/team/runtime.ts is not
among the repository files). Read-only: computes a fresh snapshot from
the Task Store and a pane probe of each active worker, and never
mutates state. -/
def monitorTeam (env : PollEnv) (s : TeamState) : TeamSnapshot :=
  { workers := s.activeWorkers.map (workerStatusOf env)
    taskCounts := taskCounts s.tasks
    deadWorkers :=
      ((s.activeWorkers.filter (fun w => !env.paneAlive w.paneId)).map (fun w => w.name)) }

/-! ## Manual assignment (assignTask, spec section 4.4) -/

/-- assignTask errors. -/
inductive AssignError where
  | taskNotPending
  | notFound
deriving DecidableEq, Repr

/-- Modelled from the spec: `assignTask` (src/team/runtime.ts is not
among the repository files). Fails with TaskNotPending if the task is
not currently pending; otherwise writes the task payload to the
worker's inbox and triggers the pane. Task status transitions are
driven exclusively by Worker Lifecycle and the Watchdog, so the Task
Store is untouched here. -/
def assignTask (s : TeamState) (taskId workerName : String) :
    Except AssignError TeamState :=
  match s.tasks.find? (fun t => t.id = taskId) with
  | none => .error .notFound
  | some t =>
    if t.status = .pending then
      .ok { s with inboxes := (workerName, t.subject ++ "\n" ++ t.description) :: s.inboxes }
    else .error .taskNotPending

/-! ## Invariants (spec section 3) -/

/-- `w` is the owning worker of task `t`: the task's owner is the
worker's name and the worker's currentTaskId mirrors the task. -/
def ownerMatches (t : Task) (w : ActiveWorker) : Bool :=
  t.owner = some w.name && w.currentTaskId = some t.id

/-- First half of the task invariant: the owner field is set iff the
status is in_progress. -/
def ownerIffInProgress (t : Task) : Bool :=
  t.owner.isSome = decide (t.status = .in_progress)

/-- The per-task invariant: owner is set iff the status is in_progress,
and an in_progress task has exactly one owning worker in the roster. -/
def taskInvariant (ws : List ActiveWorker) (t : Task) : Bool :=
  ownerIffInProgress t &&
    (t.status ≠ .in_progress || ws.countP (ownerMatches t) = 1)

/-- The team invariant: every task in the store satisfies
`taskInvariant` against the active-worker roster. -/
def invariantHolds (s : TeamState) : Bool :=
  s.tasks.all (taskInvariant s.activeWorkers)

/-- A worker pointer is backed by the Task Store: whatever task id a
roster entry mirrors names a stored task owned by that worker. -/
def coherent (s : TeamState) : Bool :=
  s.activeWorkers.all fun w =>
    match w.currentTaskId with
    | none => true
    | some tid => s.tasks.any (fun t => t.id = tid && t.owner = some w.name)

/-- Well-formedness of a team state: task ids and worker names are
unique within the team (spec section 3), and worker pointers are
backed by task ownership. -/
def WellFormed (s : TeamState) : Prop :=
  (s.tasks.map Task.id).Nodup ∧ (s.activeWorkers.map ActiveWorker.name).Nodup ∧
    coherent s = true

instance (s : TeamState) : Decidable (WellFormed s) := by
  unfold WellFormed; infer_instance

/-! ## Watchdog loop handle (watchdogCliWorkers, spec section 4.3) -/

/-- The state of the background polling loop started by
watchdogCliWorkers: whether its interval has been cleared, and how
many ticks have run. -/
structure WatchdogLoop where
  stopped : Bool
  ticksRun : Nat
deriving DecidableEq, Repr

/-- The stop function returned by watchdogCliWorkers: clears the
polling interval. A total function: calling it on an
already-stopped loop is a safe no-op and cannot throw. -/
def stopWatchdog (l : WatchdogLoop) : WatchdogLoop :=
  { l with stopped := true }

/-- One scheduled firing of the polling loop: a stopped loop does
nothing; a running loop performs one Watchdog tick. -/
def watchdogStep (env : PollEnv) (l : WatchdogLoop) (s : TeamState) :
    WatchdogLoop × TeamState :=
  if l.stopped then (l, s)
  else ({ l with ticksRun := l.ticksRun + 1 }, watchdogTick env s)

/-- Modelled from the spec: `watchdogCliWorkers` (src/team/runtime.ts is
not among the repository files). Starts the polling loop for the named
workers and returns the loop handle together with its stop function. -/
def watchdogCliWorkers (teamName : String) (workerNames : List String)
    (cwd : String) (intervalMs : Nat) :
    WatchdogLoop × (WatchdogLoop → WatchdogLoop) :=
  let _ := (teamName, workerNames, cwd, intervalMs)
  ({ stopped := false, ticksRun := 0 }, stopWatchdog)

/-! ## Shutdown (shutdownTeam, spec section 4.4) -/

/-- The teardown actions shutdownTeam performs, in order. -/
inductive ShutdownAction where
  | stopLoop
  | requestExit (paneId : Nat)
  | waitMs (ms : Nat)
  | forceKill (paneId : Nat)
  | killLeader (paneId : Nat)
deriving DecidableEq, Repr

/-- Modelled from the spec: `shutdownTeam` (src/team/runtime.ts is not
among the repository files), as the trace of teardown actions it
performs. It stops the Watchdog first, asks each worker pane to exit
gracefully, waits up to `timeoutMs` (no wait at all when the deadline
is zero), force-kills every pane that did not exit within the
deadline — judged by the collaborator observation `exitsWithin paneId
timeoutMs` — and kills the leader pane last. -/
def shutdownTeam (workerPaneIds : List Nat) (leaderPaneId : Nat)
    (timeoutMs : Nat) (exitsWithin : Nat → Nat → Bool) : List ShutdownAction :=
  [ShutdownAction.stopLoop] ++
    workerPaneIds.map ShutdownAction.requestExit ++
    (if timeoutMs = 0 then [] else [ShutdownAction.waitMs timeoutMs]) ++
    ((workerPaneIds.filter (fun p => !exitsWithin p timeoutMs)).map ShutdownAction.forceKill) ++
    [ShutdownAction.killLeader leaderPaneId]

/-! ## Team Controller: durable state, startTeam, resumeTeam
(spec sections 4.1, 4.4, 6) -/

/-- Team configuration handed to startTeam. -/
structure TeamConfig where
  teamName : String
  workerCount : Nat
  taskSpecs : List (String × String)
  cwd : String
deriving DecidableEq, Repr

/-- Persisted worker roster entry:
`\x7bworkerName, agentKind, paneId, interopMode\x7d`. -/
structure RosterEntry where
  workerName : String
  agentKind : String
  paneId : Nat
  interopMode : Option String
deriving DecidableEq, Repr

/-- The durable on-disk record of one team: Task Store contents,
worker roster, and session bookkeeping for resume. -/
structure TeamDisk where
  sessionName : String
  leaderPaneId : Nat
  tasks : List Task
  roster : List RosterEntry
deriving DecidableEq, Repr

/-- The filesystem, keyed by team name. -/
def Disk := List (String × TeamDisk)

/-- The in-memory handle for a running team. -/
structure TeamRuntime where
  teamName : String
  sessionName : String
  leaderPaneId : Nat
  workerNames : List String
  workerPaneIds : List Nat
deriving DecidableEq, Repr

/-- Tasks created at team-start time from the configuration: ids are
"1", "2", ..., all pending and unowned. -/
def initialTasks (specs : List (String × String)) : List Task :=
  specs.enum.map fun p =>
    { id := toString (p.1 + 1), subject := p.2.1, description := p.2.2
      status := .pending, owner := none }

/-- Claim the first-created pending task (if any) for the named worker. -/
def claimFirstPending (workerName : String) (ts : List Task) : List Task :=
  match ts.find? (fun t => t.status = .pending) with
  | none => ts
  | some t => claimTask t.id workerName ts

/-- Reconstruct the active-worker roster from the durable records: a
roster entry is active with the task it owns per the Task Store. -/
def workersFromDisk (d : TeamDisk) : List ActiveWorker :=
  d.roster.map fun r =>
    { name := r.workerName
      paneId := r.paneId
      currentTaskId := (d.tasks.find? (fun t => t.owner = some r.workerName)).map Task.id
      interopMode := r.interopMode
      lastHeartbeatAt := 0 }

/-- Worker names generated at team start: worker-1 .. worker-n. -/
def startNames (workerCount : Nat) : List String :=
  (List.range workerCount).map fun i => "worker-" ++ toString (i + 1)

/-- The task list after team start: the initial tasks, with each worker
having claimed the first available pending task in turn. -/
def startTasks (config : TeamConfig) : List Task :=
  (startNames config.workerCount).foldl (fun acc n => claimFirstPending n acc)
    (initialTasks config.taskSpecs)

/-- The worker roster persisted at team start. -/
def startRoster (config : TeamConfig) (paneIdOf : Nat → Nat) : List RosterEntry :=
  (startNames config.workerCount).enum.map fun p =>
    ({ workerName := p.2, agentKind := "claude", paneId := paneIdOf p.1
       interopMode := none } : RosterEntry)

/-- The durable record written by startTeam. -/
def startDiskRecord (config : TeamConfig) (sessionName : String)
    (leaderPaneId : Nat) (paneIdOf : Nat → Nat) : TeamDisk :=
  { sessionName := sessionName, leaderPaneId := leaderPaneId
    tasks := startTasks config, roster := startRoster config paneIdOf }

/-- Modelled from the spec: `startTeam` (src/team/runtime.ts is not
among the repository files). Validates `workerCount >= 1` and a
non-empty task list (InvalidConfig otherwise), creates the initial
task set, lets each worker claim the first available pending task,
persists tasks and roster durably, and returns the runtime handle,
the in-memory state and the updated disk. Pane ids are supplied by
the Pane Multiplexer collaborator as `paneIdOf`. -/
def startTeam (config : TeamConfig) (sessionName : String)
    (leaderPaneId : Nat) (paneIdOf : Nat → Nat) (disk : Disk) :
    Except String (TeamRuntime × TeamState × Disk) :=
  if config.workerCount = 0 ∨ config.taskSpecs = [] then
    .error "InvalidConfig"
  else
    let d := startDiskRecord config sessionName leaderPaneId paneIdOf
    .ok
      ({ teamName := config.teamName, sessionName := sessionName
         leaderPaneId := leaderPaneId, workerNames := startNames config.workerCount
         workerPaneIds := (startRoster config paneIdOf).map RosterEntry.paneId },
       { tasks := startTasks config, activeWorkers := workersFromDisk d
         warnings := [], inboxes := [] },
       (config.teamName, d) :: disk)

/-- Modelled from the spec: `resumeTeam` (src/team/runtime.ts is not
among the repository files). Reconstructs a TeamRuntime purely from
the on-disk Task Store and worker roster records; returns `none` when
no persisted state exists for the team name — not an error. The
Watchdog is not restarted. -/
def resumeTeam (teamName : String) (disk : Disk) :
    Option (TeamRuntime × TeamState) :=
  match disk.find? (fun e => e.1 = teamName) with
  | none => none
  | some e =>
    let d := e.2
    some
      ({ teamName := teamName, sessionName := d.sessionName
         leaderPaneId := d.leaderPaneId
         workerNames := d.roster.map RosterEntry.workerName
         workerPaneIds := d.roster.map RosterEntry.paneId },
       { tasks := d.tasks, activeWorkers := workersFromDisk d
         warnings := [], inboxes := [] })

/-! ## createTeamSession (src/team/tmux-session.ts, behavior per its
tests) -/

/-- Result of createTeamSession. -/
structure TeamSession where
  sessionName : String
  leaderPaneId : String
  workerPaneIds : List String
deriving DecidableEq, Repr

/-- The tmux commands createTeamSession issues, abstracted. -/
inductive TmuxCmd where
  | newSessionDetached (name : String) (cwd : String)
  | resolvePaneId (target : String)
  | resolveContext (target : String)
  | resolveContextFallback
  | splitWindow (target : String)
deriving DecidableEq, Repr

/-- The environment createTeamSession observes: the TMUX and TMUX_PANE
variables (empty string means unset), whether a tmux binary responds
to `tmux -V`, pane-id resolution for a target, session:window context
resolution, and the pane ids produced by successive split-window
calls. -/
structure TmuxEnv where
  tmuxVar : String
  tmuxPaneVar : String
  tmuxInstalled : Bool
  paneIdOfTarget : String → String
  contextOfPane : String → String
  fallbackContext : String × String
  splitPaneIds : Nat → String

/-- Modelled from the spec: `createTeamSession` (src/team/tmux-session.ts
is not among the repository files; only its tests are), following the
behavior those tests document. Inside tmux, the context is anchored to
a valid TMUX_PANE (falling back to default context discovery when the
variable does not name a pane). Outside tmux, with no TMUX variable
set: if tmux is not installed the call rejects with an error naming
that tmux is not available; otherwise a detached session named
`omc-team-<teamName>` is created, the leader pane is resolved from
that session, and the bare session name (no window suffix) is
returned. Worker panes are then split off the leader. -/
def createTeamSession (env : TmuxEnv) (teamName : String)
    (workerCount : Nat) (cwd : String) :
    Except String (TeamSession × List TmuxCmd) :=
  let workerIds := (List.range workerCount).map env.splitPaneIds
  if env.tmuxVar = "" then
    if env.tmuxInstalled then
      let sname := "omc-team-" ++ teamName
      let leader := env.paneIdOfTarget sname
      .ok
        ({ sessionName := sname, leaderPaneId := leader, workerPaneIds := workerIds },
         [TmuxCmd.newSessionDetached sname cwd, TmuxCmd.resolvePaneId sname] ++
           workerIds.map (fun _ => TmuxCmd.splitWindow leader))
    else
      .error "tmux is not available. Install tmux first to use team mode."
  else
    if env.tmuxPaneVar.startsWith "%" then
      let leader := env.tmuxPaneVar
      .ok
        ({ sessionName := env.contextOfPane leader, leaderPaneId := leader
           workerPaneIds := workerIds },
         [TmuxCmd.resolveContext leader] ++ workerIds.map (fun _ => TmuxCmd.splitWindow leader))
    else
      let leader := env.fallbackContext.2
      .ok
        ({ sessionName := env.fallbackContext.1, leaderPaneId := leader
           workerPaneIds := workerIds },
         [TmuxCmd.resolveContextFallback] ++ workerIds.map (fun _ => TmuxCmd.splitWindow leader))

/-! ## General list facts used by the invariant proofs -/

theorem countP_eq_one_unique {α : Type} {p : α → Bool} {l : List α}
    (h : l.countP p = 1) {a b : α} (ha : a ∈ l) (hb : b ∈ l)
    (hpa : p a = true) (hpb : p b = true) : a = b := by
  rw [List.countP_eq_length_filter] at h
  obtain ⟨x, hx⟩ := List.length_eq_one.mp h
  have ha2 : a ∈ l.filter p := List.mem_filter.mpr ⟨ha, hpa⟩
  have hb2 : b ∈ l.filter p := List.mem_filter.mpr ⟨hb, hpb⟩
  rw [hx, List.mem_singleton] at ha2 hb2
  rw [ha2, hb2]

theorem countP_eq_one_exists {α : Type} {p : α → Bool} {l : List α}
    (h : l.countP p = 1) : ∃ a ∈ l, p a = true := by
  rw [List.countP_eq_length_filter] at h
  obtain ⟨x, hx⟩ := List.length_eq_one.mp h
  have hm : x ∈ l.filter p := by rw [hx]; exact List.mem_singleton_self x
  exact ⟨x, (List.mem_filter.mp hm).1, (List.mem_filter.mp hm).2⟩

/-- In a well-formed team state, two roster entries mirroring the same
task id are the same worker: coherence backs each pointer by task
ownership, and task ids and worker names are unique. -/
theorem pointer_unique {s : TeamState} (hwf : WellFormed s)
    {w1 w2 : ActiveWorker} (h1 : w1 ∈ s.activeWorkers) (h2 : w2 ∈ s.activeWorkers)
    {tid : String} (p1 : w1.currentTaskId = some tid)
    (p2 : w2.currentTaskId = some tid) : w1 = w2 := by
  obtain ⟨hids, hnames, hcoh⟩ := hwf
  have c1 := List.all_eq_true.mp hcoh w1 h1
  have c2 := List.all_eq_true.mp hcoh w2 h2
  rw [p1] at c1
  rw [p2] at c2
  simp only [List.any_eq_true, Bool.and_eq_true, decide_eq_true_eq] at c1 c2
  obtain ⟨t1, ht1, hid1, ho1⟩ := c1
  obtain ⟨t2, ht2, hid2, ho2⟩ := c2
  have hteq : t1 = t2 := List.inj_on_of_nodup_map hids ht1 ht2 (by rw [hid1, hid2])
  subst hteq
  have hname : w1.name = w2.name := Option.some_injective _ (ho1.symm.trans ho2)
  exact List.inj_on_of_nodup_map hnames h1 h2 hname

/-! ## C6: resumeTeam with no persisted state -/

/-- C6: for every team name and disk holding no persisted record for it,
resumeTeam returns none (null) — a total function, so no error is
raised. -/
theorem resumeTeam_none_when_no_state (teamName : String) (disk : Disk)
    (h : disk.find? (fun e => e.1 = teamName) = none) :
    resumeTeam teamName disk = none := by
  unfold resumeTeam
  rw [h]

/-- Witness for C6 at a concrete empty disk. -/
theorem resumeTeam_none_when_no_state_witness :
    resumeTeam "ghost-team" ([] : Disk) = none :=
  resumeTeam_none_when_no_state "ghost-team" [] rfl

/-! ## C7: the watchdog stop function is idempotent -/

/-- C7: the stop function returned by watchdogCliWorkers is idempotent —
calling it twice equals calling it once, the loop is stopped after one
call, and a scheduled step after stopping is a safe no-op (the stop
function and the step are total, so a late call cannot throw). -/
theorem stopWatchdog_idempotent (teamName : String) (workerNames : List String)
    (cwd : String) (intervalMs : Nat) (env : PollEnv) (l : WatchdogLoop)
    (s : TeamState) :
    (watchdogCliWorkers teamName workerNames cwd intervalMs).2
        ((watchdogCliWorkers teamName workerNames cwd intervalMs).2 l) =
      (watchdogCliWorkers teamName workerNames cwd intervalMs).2 l ∧
    ((watchdogCliWorkers teamName workerNames cwd intervalMs).2 l).stopped = true ∧
    watchdogStep env ((watchdogCliWorkers teamName workerNames cwd intervalMs).2 l) s =
      ((watchdogCliWorkers teamName workerNames cwd intervalMs).2 l, s) := by
  refine ⟨rfl, rfl, ?_⟩
  simp [watchdogCliWorkers, stopWatchdog, watchdogStep]

/-! ## C8: shutdown ordering and the zero-timeout force kill -/

/-- C8: shutdownTeam stops the Watchdog first, asks every worker pane to
exit, waits only up to timeoutMs (never at all when timeoutMs = 0: an
unresponsive pane is force-killed immediately rather than awaited),
force-kills every pane that did not exit within the deadline, and
kills the leader pane last. -/
theorem shutdownTeam_spec (workerPaneIds : List Nat) (leaderPaneId : Nat)
    (timeoutMs : Nat) (exitsWithin : Nat → Nat → Bool) (p : Nat)
    (hp : p ∈ workerPaneIds) (hstuck : exitsWithin p timeoutMs = false) :
    (shutdownTeam workerPaneIds leaderPaneId timeoutMs exitsWithin).head? =
        some ShutdownAction.stopLoop ∧
    (shutdownTeam workerPaneIds leaderPaneId timeoutMs exitsWithin).getLast? =
        some (ShutdownAction.killLeader leaderPaneId) ∧
    (∀ q ∈ workerPaneIds, ShutdownAction.requestExit q ∈
        shutdownTeam workerPaneIds leaderPaneId timeoutMs exitsWithin) ∧
    ShutdownAction.forceKill p ∈
        shutdownTeam workerPaneIds leaderPaneId timeoutMs exitsWithin ∧
    (∀ ms, ShutdownAction.waitMs ms ∈
        shutdownTeam workerPaneIds leaderPaneId timeoutMs exitsWithin →
      ms = timeoutMs ∧ timeoutMs ≠ 0) ∧
    (timeoutMs = 0 → ∀ ms, ShutdownAction.waitMs ms ∉
        shutdownTeam workerPaneIds leaderPaneId timeoutMs exitsWithin) := by
  have hwaitchar : ∀ ms, ShutdownAction.waitMs ms ∈
      shutdownTeam workerPaneIds leaderPaneId timeoutMs exitsWithin →
      ms = timeoutMs ∧ timeoutMs ≠ 0 := by
    intro ms hms
    unfold shutdownTeam at hms
    rcases List.mem_append.mp hms with h4 | h5
    · rcases List.mem_append.mp h4 with h3 | hkills
      · rcases List.mem_append.mp h3 with h2 | hwait
        · rcases List.mem_append.mp h2 with hstop | hreq
          · simp at hstop
          · simp [List.mem_map] at hreq
        · by_cases h0 : timeoutMs = 0
          · rw [if_pos h0] at hwait
            simp at hwait
          · rw [if_neg h0] at hwait
            simp at hwait
            exact ⟨hwait, h0⟩
      · simp [List.mem_map] at hkills
    · simp at h5
  refine ⟨?_, List.getLast?_concat _, ?_, ?_, hwaitchar, ?_⟩
  · simp [shutdownTeam]
  · intro q hq
    unfold shutdownTeam
    refine List.mem_append_left _ (List.mem_append_left _
      (List.mem_append_left _ (List.mem_append_right _ ?_)))
    exact List.mem_map_of_mem _ hq
  · unfold shutdownTeam
    refine List.mem_append_left _ (List.mem_append_right _ ?_)
    exact List.mem_map_of_mem _ (List.mem_filter.mpr ⟨hp, by rw [hstuck]; rfl⟩)
  · intro h0 ms hms
    exact ((hwaitchar ms hms).2 h0).elim

/-- Witness for C8: one worker pane, timeout zero, a pane that never
exits gracefully — it is force-killed with no wait, and the leader is
killed last. -/
theorem shutdownTeam_spec_witness :
    (shutdownTeam [7] 1 0 (fun _ _ => false)).head? = some ShutdownAction.stopLoop ∧
    (shutdownTeam [7] 1 0 (fun _ _ => false)).getLast? =
        some (ShutdownAction.killLeader 1) ∧
    (∀ q ∈ [7], ShutdownAction.requestExit q ∈ shutdownTeam [7] 1 0 (fun _ _ => false)) ∧
    ShutdownAction.forceKill 7 ∈ shutdownTeam [7] 1 0 (fun _ _ => false) ∧
    (∀ ms, ShutdownAction.waitMs ms ∈ shutdownTeam [7] 1 0 (fun _ _ => false) →
      ms = 0 ∧ (0 : Nat) ≠ 0) ∧
    ((0 : Nat) = 0 → ∀ ms, ShutdownAction.waitMs ms ∉ shutdownTeam [7] 1 0 (fun _ _ => false)) :=
  shutdownTeam_spec [7] 1 0 (fun _ _ => false) 7 (by decide) rfl

/-! ## C9: totality and routing of detectCli -/

/-- C9: detectCli is a total function on binary names (so it never
throws): it reports available with the trimmed probe output as version
and the resolved path exactly when resolution succeeds and the
`--version` probe exits with status 0; whenever resolution throws, the
probe throws, or the probe exits with a non-zero (or missing) status,
it reports available := false. -/
theorem detectCli_total_spec (env : CliProbeEnv) (binary : String) :
    ((detectCli env binary).available = true ↔
      ∃ p out, env.resolveCliBinaryPath binary = some p ∧
        env.spawnVersion p = .result (some 0) out) ∧
    (env.resolveCliBinaryPath binary = none →
      detectCli env binary = ⟨false, none, none⟩) ∧
    (∀ p, env.resolveCliBinaryPath binary = some p →
      env.spawnVersion p = .thrown → detectCli env binary = ⟨false, none, none⟩) ∧
    (∀ p st out, env.resolveCliBinaryPath binary = some p →
      env.spawnVersion p = .result st out → st ≠ some 0 →
      detectCli env binary = ⟨false, none, none⟩) ∧
    (∀ p out, env.resolveCliBinaryPath binary = some p →
      env.spawnVersion p = .result (some 0) out →
      detectCli env binary = ⟨true, out.map (fun v => v.trim), some p⟩) := by
  cases hres : env.resolveCliBinaryPath binary with
  | none =>
    have hd : detectCli env binary = ⟨false, none, none⟩ := by
      unfold detectCli; rw [hres]
    refine ⟨?_, fun _ => hd, ?_, ?_, ?_⟩
    · rw [hd]; simp
    · intro p hp; cases hp
    · intro p st out hp; cases hp
    · intro p out hp; cases hp
  | some q =>
    have hstep : detectCli env binary =
        (match env.spawnVersion q with
          | .thrown => ⟨false, none, none⟩
          | .result status stdout =>
            if status = some 0 then
              ⟨true, stdout.map (fun s => s.trim), some q⟩
            else ⟨false, none, none⟩) := by
      unfold detectCli; rw [hres]
    cases hspawn : env.spawnVersion q with
    | thrown =>
      have hd : detectCli env binary = ⟨false, none, none⟩ := by
        rw [hstep, hspawn]
      refine ⟨?_, ?_, ?_, ?_, ?_⟩
      · rw [hd]
        simp only [Bool.false_eq_true, false_iff]
        rintro ⟨p, out2, hp, hres2⟩
        rw [Option.some_inj] at hp
        subst hp
        rw [hspawn] at hres2
        cases hres2
      · intro h; cases h
      · intro p hp hthr
        exact hd
      · intro p st2 out2 hp hres2 hne
        rw [Option.some_inj] at hp
        subst hp
        rw [hspawn] at hres2
        cases hres2
      · intro p out2 hp hres2
        rw [Option.some_inj] at hp
        subst hp
        rw [hspawn] at hres2
        cases hres2
    | result st out =>
      by_cases h0 : st = some 0
      · subst h0
        have hd : detectCli env binary = ⟨true, out.map (fun s => s.trim), some q⟩ := by
          rw [hstep, hspawn]
          simp
        refine ⟨?_, ?_, ?_, ?_, ?_⟩
        · rw [hd]
          simp only [true_iff]
          exact ⟨q, out, rfl, hspawn⟩
        · intro h; cases h
        · intro p hp hthr
          rw [Option.some_inj] at hp
          subst hp
          rw [hspawn] at hthr
          cases hthr
        · intro p st2 out2 hp hres2 hne
          rw [Option.some_inj] at hp
          subst hp
          rw [hspawn] at hres2
          cases hres2
          exact absurd rfl hne
        · intro p out2 hp hres2
          rw [Option.some_inj] at hp
          subst hp
          rw [hspawn] at hres2
          cases hres2
          exact hd
      · have hd : detectCli env binary = ⟨false, none, none⟩ := by
          rw [hstep, hspawn]
          simp [h0]
        refine ⟨?_, ?_, ?_, ?_, ?_⟩
        · rw [hd]
          simp only [Bool.false_eq_true, false_iff]
          rintro ⟨p, out2, hp, hres2⟩
          rw [Option.some_inj] at hp
          subst hp
          rw [hspawn] at hres2
          cases hres2
          exact h0 rfl
        · intro h; cases h
        · intro p hp hthr
          rw [Option.some_inj] at hp
          subst hp
          rw [hspawn] at hthr
          cases hthr
        · intro p st2 out2 hp hres2 hne
          exact hd
        · intro p out2 hp hres2
          rw [Option.some_inj] at hp
          subst hp
          rw [hspawn] at hres2
          cases hres2
          exact absurd rfl h0

/-! ## C10: createTeamSession outside any tmux session -/

/-- C10: with the TMUX variable unset, createTeamSession auto-creates a
detached tmux session named `omc-team-<teamName>`, resolves the leader
pane from that session, and returns the bare session name (no window
suffix — in particular no colon when the team name has none); when
tmux is not installed it instead rejects with an error stating tmux is
not available. -/
theorem createTeamSession_outside_tmux (env : TmuxEnv) (teamName : String)
    (workerCount : Nat) (cwd : String) (hunset : env.tmuxVar = "") :
    (env.tmuxInstalled = true →
      ∃ sess cmds, createTeamSession env teamName workerCount cwd = .ok (sess, cmds) ∧
        sess.sessionName = "omc-team-" ++ teamName ∧
        TmuxCmd.newSessionDetached ("omc-team-" ++ teamName) cwd ∈ cmds ∧
        TmuxCmd.resolvePaneId ("omc-team-" ++ teamName) ∈ cmds ∧
        sess.leaderPaneId = env.paneIdOfTarget ("omc-team-" ++ teamName) ∧
        ((':' ∈ teamName.data → False) → (':' ∈ sess.sessionName.data → False))) ∧
    (env.tmuxInstalled = false →
      createTeamSession env teamName workerCount cwd =
        .error "tmux is not available. Install tmux first to use team mode.") := by
  constructor
  · intro hinst
    refine ⟨{ sessionName := "omc-team-" ++ teamName
              leaderPaneId := env.paneIdOfTarget ("omc-team-" ++ teamName)
              workerPaneIds := (List.range workerCount).map env.splitPaneIds },
      [TmuxCmd.newSessionDetached ("omc-team-" ++ teamName) cwd,
       TmuxCmd.resolvePaneId ("omc-team-" ++ teamName)] ++
        ((List.range workerCount).map env.splitPaneIds).map
          (fun _ => TmuxCmd.splitWindow (env.paneIdOfTarget ("omc-team-" ++ teamName))),
      ?_, rfl, ?_, ?_, rfl, ?_⟩
    · unfold createTeamSession
      rw [hunset, if_pos rfl, hinst, if_pos rfl]
    · exact List.mem_append_left _ (List.mem_cons_self _ _)
    · exact List.mem_append_left _ (List.mem_cons_of_mem _ (List.mem_cons_self _ _))
    · intro hteam hcolon
      have hdata : ("omc-team-" ++ teamName).data = "omc-team-".data ++ teamName.data := rfl
      rw [hdata, List.mem_append] at hcolon
      rcases hcolon with h | h
      · revert h; decide
      · exact hteam h
  · intro hinst
    unfold createTeamSession
    rw [hunset, if_pos rfl, hinst]
    rfl

/-- A concrete tmux environment mirroring the create-team tests: no TMUX
variable, tmux installed, deterministic pane resolution. -/
def tmuxEnvExample : TmuxEnv :=
  { tmuxVar := ""
    tmuxPaneVar := ""
    tmuxInstalled := true
    paneIdOfTarget := fun _ => "%99"
    contextOfPane := fun _ => "omx:4"
    fallbackContext := ("fallback:2", "%42")
    splitPaneIds := fun i => "%50" ++ toString (i + 1) }

/-- Witness for C10 at the concrete environment and team name of the
tests. -/
theorem createTeamSession_outside_tmux_witness :
    (tmuxEnvExample.tmuxInstalled = true →
      ∃ sess cmds, createTeamSession tmuxEnvExample "no-tmux-team" 0 "/tmp" = .ok (sess, cmds) ∧
        sess.sessionName = "omc-team-" ++ "no-tmux-team" ∧
        TmuxCmd.newSessionDetached ("omc-team-" ++ "no-tmux-team") "/tmp" ∈ cmds ∧
        TmuxCmd.resolvePaneId ("omc-team-" ++ "no-tmux-team") ∈ cmds ∧
        sess.leaderPaneId = tmuxEnvExample.paneIdOfTarget ("omc-team-" ++ "no-tmux-team") ∧
        ((':' ∈ "no-tmux-team".data → False) → (':' ∈ sess.sessionName.data → False))) ∧
    (tmuxEnvExample.tmuxInstalled = false →
      createTeamSession tmuxEnvExample "no-tmux-team" 0 "/tmp" =
        .error "tmux is not available. Install tmux first to use team mode.") :=
  createTeamSession_outside_tmux tmuxEnvExample "no-tmux-team" 0 "/tmp" rfl

/-! ## C1: fail-open interop bootstrap in spawnWorkerForTask -/

/-- C1: for a worker whose interop mode requires bridging and whose
bootstrap call throws, spawnWorkerForTask still resolves with the pane
id, the claimed task stays persisted as in_progress with the worker as
owner, and exactly one warning — containing both the worker name and
the task id as substrings — is prepended to the log; the bootstrap
failure never surfaces as a spawn or task failure. -/
theorem spawnWorkerForTask_fail_open (s : TeamState) (workerName mode : String)
    (pane startTimeMs : Nat) (t : Task)
    (hfind : s.tasks.find? (fun u => u.status = .pending) = some t) :
    ∃ s2, spawnWorkerForTask s workerName (some mode) (.ok pane) true startTimeMs
        = (.ok pane, s2) ∧
      (∃ u ∈ s2.tasks, u.id = t.id ∧ u.status = .in_progress ∧
        u.owner = some workerName) ∧
      s2.warnings = spawnWarning workerName t.id :: s.warnings ∧
      (∃ a b, spawnWarning workerName t.id = a ++ (workerName ++ b)) ∧
      (∃ c d, spawnWarning workerName t.id = c ++ (t.id ++ d)) := by
  refine ⟨{ tasks := claimTask t.id workerName s.tasks
            activeWorkers :=
              { name := workerName, paneId := pane, currentTaskId := some t.id
                interopMode := some mode, lastHeartbeatAt := startTimeMs } ::
                s.activeWorkers
            warnings := spawnWarning workerName t.id :: s.warnings
            inboxes := s.inboxes }, ?_, ?_, rfl, ?_, ?_⟩
  · unfold spawnWorkerForTask
    rw [hfind]
    rfl
  · have ht : t ∈ s.tasks := List.mem_of_find?_eq_some hfind
    refine ⟨{ t with status := .in_progress, owner := some workerName }, ?_, rfl, rfl, rfl⟩
    show _ ∈ claimTask t.id workerName s.tasks
    unfold claimTask
    have := List.mem_map_of_mem
      (fun u => if u.id = t.id then
        ({ u with status := .in_progress, owner := some workerName } : Task) else u) ht
    simpa using this
  · exact ⟨"interop bootstrap failed for worker ",
      " on task " ++ (t.id ++ ", continuing without interop"), rfl⟩
  · refine ⟨"interop bootstrap failed for worker " ++ (workerName ++ " on task "),
      ", continuing without interop", ?_⟩
    unfold spawnWarning
    simp [String.append_assoc]

/-- A one-task team state mirroring the interop fail-open test: task 1
pending and unowned, no active workers. -/
def interopTestState : TeamState :=
  { tasks := [{ id := "1", subject := "Interop task", description := "Do work"
                status := .pending, owner := none }]
    activeWorkers := []
    warnings := []
    inboxes := [] }

/-- Witness for C1 at the concrete scenario of the fail-open test:
worker-1, interop mode omx, bootstrap rejecting, pane 77. -/
theorem spawnWorkerForTask_fail_open_witness :
    ∃ s2, spawnWorkerForTask interopTestState "worker-1" (some "omx") (.ok 77) true 0
        = (.ok 77, s2) ∧
      (∃ u ∈ s2.tasks, u.id = "1" ∧ u.status = .in_progress ∧
        u.owner = some "worker-1") ∧
      s2.warnings = spawnWarning "worker-1" "1" :: interopTestState.warnings ∧
      (∃ a b, spawnWarning "worker-1" "1" = a ++ ("worker-1" ++ b)) ∧
      (∃ c d, spawnWarning "worker-1" "1" = c ++ ("1" ++ d)) :=
  spawnWorkerForTask_fail_open interopTestState "worker-1" "omx" 77 0
    { id := "1", subject := "Interop task", description := "Do work"
      status := .pending, owner := none } (by decide)

/-- A concrete poll environment for witnesses: every pane alive, no
activity since time 0, clock at 100, stall threshold 10, no
completions on either channel. -/
def pollEnvExample : PollEnv :=
  { paneAlive := fun _ => true
    lastActivityAt := fun _ => 0
    now := 100
    stallThresholdMs := 10
    sentinel := fun _ => none
    bridgeCompletion := fun _ => none }

/-! ## C3: startTeam / resumeTeam round trip -/

/-- C3: for every valid team configuration, startTeam followed
immediately by resumeTeam with the same team name (a simulated
coordinator restart with no intervening task mutations) reconstructs,
purely from the on-disk records, a runtime and state equal to the
pre-restart ones — in particular the snapshot task counts per status
match exactly. -/
theorem startTeam_resumeTeam_round_trip (config : TeamConfig)
    (sessionName : String) (leaderPaneId : Nat) (paneIdOf : Nat → Nat)
    (disk : Disk) (env : PollEnv)
    (hw : config.workerCount ≠ 0) (ht : config.taskSpecs ≠ []) :
    ∃ rt st disk2,
      startTeam config sessionName leaderPaneId paneIdOf disk = .ok (rt, st, disk2) ∧
      ∃ rt2 st2, resumeTeam config.teamName disk2 = some (rt2, st2) ∧
        rt2 = rt ∧ st2 = st ∧
        (monitorTeam env st2).taskCounts = (monitorTeam env st).taskCounts := by
  have hcond : ¬(config.workerCount = 0 ∨ config.taskSpecs = []) := by
    rintro (h | h)
    · exact hw h
    · exact ht h
  refine ⟨{ teamName := config.teamName, sessionName := sessionName
            leaderPaneId := leaderPaneId
            workerNames := startNames config.workerCount
            workerPaneIds := (startRoster config paneIdOf).map RosterEntry.paneId },
    { tasks := startTasks config
      activeWorkers := workersFromDisk (startDiskRecord config sessionName leaderPaneId paneIdOf)
      warnings := [], inboxes := [] },
    (config.teamName, startDiskRecord config sessionName leaderPaneId paneIdOf) :: disk,
    ?_, ?_⟩
  · unfold startTeam
    rw [if_neg hcond]
  · unfold resumeTeam
    rw [List.find?_cons_of_pos _ (by simp)]
    refine ⟨_, _, rfl, ?_, rfl, rfl⟩
    have hnames : (startRoster config paneIdOf).map RosterEntry.workerName =
        startNames config.workerCount := by
      unfold startRoster
      rw [List.map_map]
      exact List.enum_map_snd (startNames config.workerCount)
    simp [TeamRuntime.mk.injEq, startDiskRecord, hnames]

/-- Witness for C3: a one-worker one-task configuration round-trips
through the disk. -/
theorem startTeam_resumeTeam_round_trip_witness :
    ∃ rt st disk2,
      startTeam { teamName := "team-a", workerCount := 1
                  taskSpecs := [("Interop task", "Do work")], cwd := "/tmp" }
          "sess" 0 (fun i => i + 10) ([] : Disk) = .ok (rt, st, disk2) ∧
      ∃ rt2 st2, resumeTeam "team-a" disk2 = some (rt2, st2) ∧
        rt2 = rt ∧ st2 = st ∧
        (monitorTeam pollEnvExample st2).taskCounts =
          (monitorTeam pollEnvExample st).taskCounts :=
  startTeam_resumeTeam_round_trip
    { teamName := "team-a", workerCount := 1
      taskSpecs := [("Interop task", "Do work")], cwd := "/tmp" }
    "sess" 0 (fun i => i + 10) [] pollEnvExample (by decide) (by decide)

/-- In a well-formed state, the claimer lookup for a task id held by a
roster member finds exactly that member. -/
theorem find_claimer (s : TeamState) (hwf : WellFormed s) (w : ActiveWorker)
    (hw : w ∈ s.activeWorkers) (tid : String) (htid : w.currentTaskId = some tid) :
    s.activeWorkers.find? (fun v => v.currentTaskId = some tid) = some w := by
  cases hf : s.activeWorkers.find? (fun v => v.currentTaskId = some tid) with
  | none =>
    exfalso
    have := List.find?_eq_none.mp hf w hw
    simp [htid] at this
  | some v =>
    have hv := List.find?_some hf
    have hvmem := List.mem_of_find?_eq_some hf
    simp only [decide_eq_true_eq] at hv
    exact congrArg some (pointer_unique hwf hvmem hw hv htid)

/-- The per-worker tick step keeps the worker's name. -/
theorem tickWorker_name (env : PollEnv) (w : ActiveWorker) :
    (tickWorker env w).name = w.name := by
  unfold tickWorker
  by_cases h : w.currentTaskId.isSome && (completionOf env w).isSome
  · rw [if_pos h]
  · rw [if_neg h]

/-! ## C4: dead-worker reclaim on the next tick -/

/-- C4: a well-formed state with an active worker whose pane has died:
the next Watchdog tick reverts that worker's in_progress task to
pending with the owner cleared, and drops the worker from the set of
tracked active workers. -/
theorem watchdog_dead_worker_reclaim (env : PollEnv) (s : TeamState)
    (w : ActiveWorker) (t : Task) (hwf : WellFormed s)
    (hw : w ∈ s.activeWorkers) (hdead : env.paneAlive w.paneId = false)
    (htid : w.currentTaskId = some t.id) (ht : t ∈ s.tasks)
    (hst : t.status = .in_progress) :
    (∃ u ∈ (watchdogTick env s).tasks, u.id = t.id ∧ u.status = .pending ∧
      u.owner = none) ∧
    ∀ v ∈ (watchdogTick env s).activeWorkers, v.name ≠ w.name := by
  constructor
  · have hstep : tickTask env s.activeWorkers t =
        { t with status := .pending, owner := none } := by
      unfold tickTask
      rw [find_claimer s hwf w hw t.id htid]
      simp [hdead]
    refine ⟨tickTask env s.activeWorkers t, List.mem_map_of_mem _ ht, ?_⟩
    rw [hstep]
    exact ⟨rfl, rfl, rfl⟩
  · intro v hv hname
    unfold watchdogTick at hv
    simp only [List.mem_map, List.mem_filter] at hv
    obtain ⟨v0, ⟨hv0mem, hv0alive⟩, hveq⟩ := hv
    have hn0 : v0.name = w.name := by
      rw [← hname, ← hveq, tickWorker_name]
    have hv0w : v0 = w := List.inj_on_of_nodup_map hwf.2.1 hv0mem hw hn0
    rw [hv0w, hdead] at hv0alive
    cases hv0alive

/-- A one-worker one-task team state, well-formed, used for the watchdog
witnesses: task 1 in progress owned by worker-1. -/
def runningTestState : TeamState :=
  { tasks := [{ id := "1", subject := "s", description := "d"
                status := .in_progress, owner := some "worker-1" }]
    activeWorkers := [{ name := "worker-1", paneId := 5, currentTaskId := some "1"
                        interopMode := none, lastHeartbeatAt := 0 }]
    warnings := []
    inboxes := [] }

/-- A poll environment where every pane is dead. -/
def deadPaneEnv : PollEnv :=
  { paneAlive := fun _ => false
    lastActivityAt := fun _ => 0
    now := 100
    stallThresholdMs := 10
    sentinel := fun _ => none
    bridgeCompletion := fun _ => none }

/-- Witness for C4: concrete dead-pane reclaim. -/
theorem watchdog_dead_worker_reclaim_witness :
    (∃ u ∈ (watchdogTick deadPaneEnv runningTestState).tasks, u.id = "1" ∧
      u.status = .pending ∧ u.owner = none) ∧
    ∀ v ∈ (watchdogTick deadPaneEnv runningTestState).activeWorkers,
      v.name ≠ "worker-1" :=
  watchdog_dead_worker_reclaim deadPaneEnv runningTestState
    { name := "worker-1", paneId := 5, currentTaskId := some "1"
      interopMode := none, lastHeartbeatAt := 0 }
    { id := "1", subject := "s", description := "d"
      status := .in_progress, owner := some "worker-1" }
    (by decide) (by decide) rfl rfl (by decide) rfl

/-! ## C5: stall is reported but never reassigns -/

/-- C5: a well-formed state with an active worker whose pane is alive
but silent for longer than the stall threshold: the next snapshot
reports that worker stalled and alive, and the next Watchdog tick
leaves its in_progress task untouched — same status, same owner. -/
theorem watchdog_stall_reported_not_reassigned (env : PollEnv) (s : TeamState)
    (w : ActiveWorker) (t : Task) (hwf : WellFormed s)
    (hw : w ∈ s.activeWorkers) (halive : env.paneAlive w.paneId = true)
    (hstall : env.lastActivityAt w.paneId + env.stallThresholdMs < env.now)
    (hnoc : completionOf env w = none)
    (htid : w.currentTaskId = some t.id) (ht : t ∈ s.tasks)
    (hst : t.status = .in_progress) :
    (∃ ws ∈ (monitorTeam env s).workers, ws.workerName = w.name ∧
      ws.alive = true ∧ ws.stalled = true) ∧
    ∃ u ∈ (watchdogTick env s).tasks, u.id = t.id ∧ u.status = .in_progress ∧
      u.owner = t.owner := by
  constructor
  · refine ⟨workerStatusOf env w, List.mem_map_of_mem _ hw, rfl, ?_, ?_⟩
    · simp [workerStatusOf, halive]
    · simp [workerStatusOf, halive, hstall]
  · have hstep : tickTask env s.activeWorkers t = t := by
      unfold tickTask
      rw [find_claimer s hwf w hw t.id htid]
      simp [halive, hnoc]
    refine ⟨tickTask env s.activeWorkers t, List.mem_map_of_mem _ ht, ?_⟩
    rw [hstep]
    exact ⟨rfl, hst, rfl⟩

/-- Witness for C5: concrete stalled-but-alive worker. -/
theorem watchdog_stall_reported_not_reassigned_witness :
    (∃ ws ∈ (monitorTeam pollEnvExample runningTestState).workers,
      ws.workerName = "worker-1" ∧ ws.alive = true ∧ ws.stalled = true) ∧
    ∃ u ∈ (watchdogTick pollEnvExample runningTestState).tasks, u.id = "1" ∧
      u.status = .in_progress ∧ u.owner = some "worker-1" :=
  watchdog_stall_reported_not_reassigned pollEnvExample runningTestState
    { name := "worker-1", paneId := 5, currentTaskId := some "1"
      interopMode := none, lastHeartbeatAt := 0 }
    { id := "1", subject := "s", description := "d"
      status := .in_progress, owner := some "worker-1" }
    (by decide) (by decide) rfl (by decide) rfl rfl (by decide) rfl

/-! ## Invariant preservation machinery for C2 -/

theorem tickTask_id (env : PollEnv) (ws : List ActiveWorker) (t : Task) :
    (tickTask env ws t).id = t.id := by
  unfold tickTask
  split
  · rfl
  · split
    · split
      · rfl
      · rfl
    · rfl

theorem tickWorker_ctid_of_no_completion (env : PollEnv) (w : ActiveWorker)
    (hc : completionOf env w = none) :
    (tickWorker env w).currentTaskId = w.currentTaskId := by
  unfold tickWorker
  rw [hc]
  simp

theorem tickWorker_some {env : PollEnv} {w : ActiveWorker} {tid : String}
    (h : (tickWorker env w).currentTaskId = some tid) :
    w.currentTaskId = some tid ∧ completionOf env w = none := by
  unfold tickWorker at h
  by_cases hg : (w.currentTaskId.isSome && (completionOf env w).isSome) = true
  · rw [if_pos hg] at h
    cases h
  · rw [if_neg hg] at h
    have hct : w.currentTaskId = some tid := h
    refine ⟨hct, ?_⟩
    cases hc : completionOf env w with
    | none => rfl
    | some b =>
      exfalso
      apply hg
      rw [hct, hc]
      rfl

theorem ownerMatches_iff {t : Task} {v : ActiveWorker} :
    ownerMatches t v = true ↔ t.owner = some v.name ∧ v.currentTaskId = some t.id := by
  unfold ownerMatches
  simp

theorem taskInvariant_parts {ws : List ActiveWorker} {t : Task}
    (h : taskInvariant ws t = true) :
    ownerIffInProgress t = true ∧
      (t.status = .in_progress → ws.countP (ownerMatches t) = 1) := by
  unfold taskInvariant at h
  rw [Bool.and_eq_true] at h
  refine ⟨h.1, ?_⟩
  intro hstat
  have h2 := h.2
  rw [Bool.or_eq_true] at h2
  rcases h2 with h2 | h2
  · simp only [decide_eq_true_eq] at h2
    exact absurd hstat h2
  · simpa using h2

theorem taskInvariant_of_parts {ws : List ActiveWorker} {t : Task}
    (h1 : ownerIffInProgress t = true)
    (h2 : t.status = .in_progress → ws.countP (ownerMatches t) = 1) :
    taskInvariant ws t = true := by
  unfold taskInvariant
  rw [Bool.and_eq_true]
  refine ⟨h1, ?_⟩
  rw [Bool.or_eq_true]
  by_cases hstat : t.status = .in_progress
  · right
    simpa using h2 hstat
  · left
    simpa using hstat

theorem invariantHolds_mem {s : TeamState} (h : invariantHolds s = true)
    {t : Task} (ht : t ∈ s.tasks) : taskInvariant s.activeWorkers t = true :=
  List.all_eq_true.mp h t ht

/-- One Watchdog tick preserves the per-task invariant for each task of
a well-formed state. -/
theorem tick_preserves_taskInvariant (env : PollEnv) (s : TeamState)
    (hwf : WellFormed s) {t : Task}
    (hti : taskInvariant s.activeWorkers t = true) :
    taskInvariant
      ((s.activeWorkers.filter (fun w => env.paneAlive w.paneId)).map (tickWorker env))
      (tickTask env s.activeWorkers t) = true := by
  obtain ⟨hOIP, hU⟩ := taskInvariant_parts hti
  cases hf : s.activeWorkers.find? (fun w => w.currentTaskId = some t.id) with
  | none =>
    have hstep : tickTask env s.activeWorkers t = t := by
      unfold tickTask
      rw [hf]
    rw [hstep]
    apply taskInvariant_of_parts hOIP
    intro hstat
    exfalso
    obtain ⟨u, hu, hpu⟩ := countP_eq_one_exists (hU hstat)
    have hnone := List.find?_eq_none.mp hf u hu
    have hpu2 := (ownerMatches_iff.mp hpu).2
    simp [hpu2] at hnone
  | some w =>
    have hwmem := List.mem_of_find?_eq_some hf
    have hwp : w.currentTaskId = some t.id := by
      have := List.find?_some hf
      simpa using this
    cases halive : env.paneAlive w.paneId with
    | false =>
      have hstep : tickTask env s.activeWorkers t =
          { t with status := .pending, owner := none } := by
        unfold tickTask
        rw [hf]
        simp [halive]
      rw [hstep]
      apply taskInvariant_of_parts
      · simp [ownerIffInProgress]
      · intro hstat
        simp at hstat
    | true =>
      cases hc : completionOf env w with
      | some ok =>
        have hstep : tickTask env s.activeWorkers t =
            { t with status := if ok then .completed else .failed, owner := none } := by
          unfold tickTask
          rw [hf]
          simp [halive, hc]
        rw [hstep]
        apply taskInvariant_of_parts
        · cases ok <;> simp [ownerIffInProgress]
        · intro hstat
          cases ok <;> simp at hstat
      | none =>
        have hstep : tickTask env s.activeWorkers t = t := by
          unfold tickTask
          rw [hf]
          simp [halive, hc]
        rw [hstep]
        apply taskInvariant_of_parts hOIP
        intro hstat
        have hcount := hU hstat
        have hwmatch : ownerMatches t w = true := by
          obtain ⟨u, hu, hpu⟩ := countP_eq_one_exists hcount
          have huweq : u = w :=
            pointer_unique hwf hu hwmem (ownerMatches_iff.mp hpu).2 hwp
          rw [← huweq]
          exact hpu
        have huniqm : ∀ v ∈ s.activeWorkers, ownerMatches t v = true → v = w := by
          intro v hv hpv
          exact pointer_unique hwf hv hwmem (ownerMatches_iff.mp hpv).2 hwp
        rw [List.countP_map, List.countP_filter]
        have hiff : ∀ v ∈ s.activeWorkers,
            ((ownerMatches t ∘ tickWorker env) v && env.paneAlive v.paneId) = true ↔
              ownerMatches t v = true := by
          intro v hv
          constructor
          · intro hb
            rw [Bool.and_eq_true] at hb
            obtain ⟨hpg, hal⟩ := hb
            have hg := ownerMatches_iff.mp hpg
            obtain ⟨hvct, _⟩ := tickWorker_some hg.2
            apply ownerMatches_iff.mpr
            refine ⟨?_, hvct⟩
            have := hg.1
            rwa [tickWorker_name] at this
          · intro hpv
            have hveq := huniqm v hv hpv
            subst hveq
            rw [Bool.and_eq_true]
            refine ⟨?_, halive⟩
            apply ownerMatches_iff.mpr
            constructor
            · rw [tickWorker_name]
              exact (ownerMatches_iff.mp hwmatch).1
            · rw [tickWorker_ctid_of_no_completion env v hc]
              exact hwp
        rw [List.countP_congr hiff]
        exact hcount

/-- One Watchdog tick preserves well-formedness: task ids are untouched,
the surviving roster is a renamed-free sublist, and surviving pointers
stay backed by unchanged tasks. -/
theorem tick_preserves_wellFormed (env : PollEnv) (s : TeamState)
    (hwf : WellFormed s) : WellFormed (watchdogTick env s) := by
  obtain ⟨hids, hnames, hcoh⟩ := hwf
  refine ⟨?_, ?_, ?_⟩
  · show ((s.tasks.map (tickTask env s.activeWorkers)).map Task.id).Nodup
    rw [List.map_map]
    have hmaps : s.tasks.map (Task.id ∘ tickTask env s.activeWorkers) =
        s.tasks.map Task.id :=
      List.map_congr_left (fun u _ => tickTask_id env s.activeWorkers u)
    rw [hmaps]
    exact hids
  · show ((((s.activeWorkers.filter fun w => env.paneAlive w.paneId)).map
      (tickWorker env)).map ActiveWorker.name).Nodup
    rw [List.map_map]
    have hmaps : ((s.activeWorkers.filter fun w => env.paneAlive w.paneId)).map
        (ActiveWorker.name ∘ tickWorker env) =
        ((s.activeWorkers.filter fun w => env.paneAlive w.paneId)).map
          ActiveWorker.name :=
      List.map_congr_left (fun v _ => tickWorker_name env v)
    rw [hmaps]
    exact List.Nodup.sublist
      (List.Sublist.map ActiveWorker.name (List.filter_sublist s.activeWorkers)) hnames
  · rw [show coherent (watchdogTick env s) =
      ((watchdogTick env s).activeWorkers.all fun w =>
        match w.currentTaskId with
        | none => true
        | some tid => (watchdogTick env s).tasks.any
            (fun u => u.id = tid && u.owner = some w.name)) from rfl]
    rw [List.all_eq_true]
    intro v' hv'
    simp only [watchdogTick, List.mem_map, List.mem_filter] at hv'
    obtain ⟨v, ⟨hvmem, hvalive⟩, hveq⟩ := hv'
    cases hct : v'.currentTaskId with
    | none => rfl
    | some tid =>
      show ((watchdogTick env s).tasks.any
        (fun u => u.id = tid && u.owner = some v'.name)) = true
      have hsome : (tickWorker env v).currentTaskId = some tid := by
        rw [hveq]; exact hct
      obtain ⟨hvct, hvc⟩ := tickWorker_some hsome
      have hcv := List.all_eq_true.mp hcoh v hvmem
      rw [hvct] at hcv
      simp only [List.any_eq_true, Bool.and_eq_true, decide_eq_true_eq] at hcv
      obtain ⟨u, humem, huid, huowner⟩ := hcv
      have hstep : tickTask env s.activeWorkers u = u := by
        unfold tickTask
        rw [find_claimer s ⟨hids, hnames, hcoh⟩ v hvmem u.id
          (by rw [hvct, huid])]
        simp [hvalive, hvc]
      rw [List.any_eq_true]
      refine ⟨tickTask env s.activeWorkers u, ?_, ?_⟩
      · show _ ∈ (s.tasks.map (tickTask env s.activeWorkers))
        exact List.mem_map_of_mem _ humem
      · rw [hstep]
        simp only [Bool.and_eq_true, decide_eq_true_eq]
        refine ⟨huid, ?_⟩
        rw [huowner, ← hveq, tickWorker_name]

/-- Claiming the found pending task and recording the fresh worker
preserves the invariant and well-formedness, whatever gets logged. -/
theorem spawn_core_preserves (s : TeamState) (workerName : String)
    (mode : Option String) (pane t0 : Nat) (t : Task) (warnings2 : List String)
    (hwf : WellFormed s) (hinv : invariantHolds s = true)
    (hfresh : workerName ∉ s.activeWorkers.map ActiveWorker.name)
    (hfind : s.tasks.find? (fun u => u.status = .pending) = some t) :
    invariantHolds
      { tasks := claimTask t.id workerName s.tasks
        activeWorkers :=
          { name := workerName, paneId := pane, currentTaskId := some t.id
            interopMode := mode, lastHeartbeatAt := t0 } :: s.activeWorkers
        warnings := warnings2, inboxes := s.inboxes } = true ∧
    WellFormed
      { tasks := claimTask t.id workerName s.tasks
        activeWorkers :=
          { name := workerName, paneId := pane, currentTaskId := some t.id
            interopMode := mode, lastHeartbeatAt := t0 } :: s.activeWorkers
        warnings := warnings2, inboxes := s.inboxes } := by
  obtain ⟨hids, hnames, hcoh⟩ := hwf
  have ht : t ∈ s.tasks := List.mem_of_find?_eq_some hfind
  have htp : t.status = .pending := by simpa using List.find?_some hfind
  have hOIPt := (taskInvariant_parts (invariantHolds_mem hinv ht)).1
  have howner : t.owner = none := by
    unfold ownerIffInProgress at hOIPt
    rw [htp] at hOIPt
    cases ho : t.owner with
    | none => rfl
    | some a =>
      rw [ho] at hOIPt
      simp at hOIPt
  constructor
  · show (claimTask t.id workerName s.tasks).all
      (taskInvariant
        ({ name := workerName, paneId := pane, currentTaskId := some t.id
           interopMode := mode, lastHeartbeatAt := t0 } :: s.activeWorkers)) = true
    rw [List.all_eq_true]
    intro u' hu'
    unfold claimTask at hu'
    obtain ⟨u, hu, rfl⟩ := List.mem_map.mp hu'
    show taskInvariant _
      (if u.id = t.id then
        { u with status := .in_progress, owner := some workerName } else u) = true
    by_cases hid : u.id = t.id
    · have hut : u = t := List.inj_on_of_nodup_map hids hu ht hid
      subst hut
      rw [if_pos rfl]
      apply taskInvariant_of_parts
      · unfold ownerIffInProgress
        simp
      · intro _
        rw [List.countP_cons_of_pos]
        · rw [List.countP_eq_zero.mpr]
          · intro v hv hpv
            have hov := (ownerMatches_iff.mp hpv).1
            have hn : workerName = v.name := Option.some_inj.mp hov
            apply hfresh
            rw [hn]
            exact List.mem_map_of_mem _ hv
        · exact ownerMatches_iff.mpr ⟨rfl, rfl⟩
    · rw [if_neg hid]
      have hparts := taskInvariant_parts (invariantHolds_mem hinv hu)
      apply taskInvariant_of_parts hparts.1
      intro hstat
      rw [List.countP_cons_of_neg]
      · exact hparts.2 hstat
      · intro hpv
        have h2 := (ownerMatches_iff.mp hpv).2
        exact hid (Option.some_inj.mp h2).symm
  · refine ⟨?_, ?_, ?_⟩
    · show ((claimTask t.id workerName s.tasks).map Task.id).Nodup
      unfold claimTask
      rw [List.map_map]
      have hmaps : s.tasks.map
          (Task.id ∘ fun u => if u.id = t.id then
            { u with status := .in_progress, owner := some workerName } else u) =
          s.tasks.map Task.id := by
        apply List.map_congr_left
        intro u _
        by_cases hid : u.id = t.id <;> simp [hid]
      rw [hmaps]
      exact hids
    · show (((_ :: s.activeWorkers).map ActiveWorker.name)).Nodup
      rw [List.map_cons]
      exact List.nodup_cons.mpr ⟨hfresh, hnames⟩
    · show ((_ :: s.activeWorkers).all
        (fun w =>
          match w.currentTaskId with
          | none => true
          | some tid => (claimTask t.id workerName s.tasks).any
              (fun u => u.id = tid && u.owner = some w.name))) = true
      rw [List.all_eq_true]
      intro v hv
      rcases List.mem_cons.mp hv with hv0 | hvs
      · subst hv0
        show ((claimTask t.id workerName s.tasks).any
          (fun u => u.id = t.id && u.owner = some workerName)) = true
        rw [List.any_eq_true]
        refine ⟨(fun u => if u.id = t.id then
            ({ u with status := .in_progress, owner := some workerName } : Task)
          else u) t, List.mem_map_of_mem _ ht, ?_⟩
        simp
      · cases hct : v.currentTaskId with
        | none => rfl
        | some tid =>
          show ((claimTask t.id workerName s.tasks).any
            (fun u => u.id = tid && u.owner = some v.name)) = true
          have hcv := List.all_eq_true.mp hcoh v hvs
          rw [hct] at hcv
          simp only [List.any_eq_true, Bool.and_eq_true, decide_eq_true_eq] at hcv
          obtain ⟨u, humem, huid, huowner⟩ := hcv
          have hneq : ¬u.id = t.id := by
            intro he
            have hut : u = t := List.inj_on_of_nodup_map hids humem ht he
            rw [hut, howner] at huowner
            cases huowner
          rw [List.any_eq_true]
          refine ⟨(fun x => if x.id = t.id then
              ({ x with status := .in_progress, owner := some workerName } : Task)
            else x) u, List.mem_map_of_mem _ humem, ?_⟩
          have hneq2 : ¬tid = t.id := by
            rw [← huid]
            exact hneq
          simp [hneq2, huid, huowner]

/-- Claiming a task keeps the owner-iff-in_progress half of the
invariant on every task. -/
theorem claimTask_ownerIffInProgress (ts : List Task) (ws : List ActiveWorker)
    (tid wn : String) (h : ts.all (taskInvariant ws) = true) :
    (claimTask tid wn ts).all ownerIffInProgress = true := by
  rw [List.all_eq_true]
  intro u' hu'
  unfold claimTask at hu'
  obtain ⟨u, hu, rfl⟩ := List.mem_map.mp hu'
  show ownerIffInProgress
    (if u.id = tid then { u with status := .in_progress, owner := some wn } else u) = true
  by_cases hid : u.id = tid
  · rw [if_pos hid]
    unfold ownerIffInProgress
    simp
  · rw [if_neg hid]
    exact (taskInvariant_parts (List.all_eq_true.mp h u hu)).1

/-- Every outcome of spawnWorkerForTask — including a propagated pane
failure after the claim — keeps the owner-iff-in_progress half of the
invariant on every task. -/
theorem spawn_preserves_ownerIffInProgress (s : TeamState) (workerName : String)
    (mode : Option String) (paneResult : Except String Nat) (bThrows : Bool)
    (t0 : Nat) (r : Except SpawnError Nat) (s2 : TeamState)
    (hinv : invariantHolds s = true)
    (hok : spawnWorkerForTask s workerName mode paneResult bThrows t0 = (r, s2)) :
    s2.tasks.all ownerIffInProgress = true := by
  unfold spawnWorkerForTask at hok
  cases hfind : s.tasks.find? (fun u => u.status = .pending) with
  | none =>
    rw [hfind] at hok
    injection hok with h1 h2
    subst h2
    rw [List.all_eq_true]
    intro u hu
    exact (taskInvariant_parts (invariantHolds_mem hinv hu)).1
  | some t =>
    rw [hfind] at hok
    cases paneResult with
    | error m =>
      injection hok with h1 h2
      subst h2
      exact claimTask_ownerIffInProgress s.tasks s.activeWorkers t.id workerName hinv
    | ok p2 =>
      injection hok with h1 h2
      subst h2
      by_cases hbr : (mode.isSome && bThrows) = true
      · rw [if_pos hbr]
        exact claimTask_ownerIffInProgress s.tasks s.activeWorkers t.id workerName hinv
      · rw [if_neg hbr]
        exact claimTask_ownerIffInProgress s.tasks s.activeWorkers t.id workerName hinv

/-- assignTask never touches the Task Store or the roster, so a
successful call preserves the invariant and well-formedness. -/
theorem assign_preserves (s : TeamState) (hwf : WellFormed s)
    (hinv : invariantHolds s = true) (taskId workerName : String) (s2 : TeamState)
    (hok : assignTask s taskId workerName = .ok s2) :
    invariantHolds s2 = true ∧ WellFormed s2 := by
  unfold assignTask at hok
  cases hfind : s.tasks.find? (fun u => u.id = taskId) with
  | none =>
    rw [hfind] at hok
    simp at hok
  | some t =>
    rw [hfind] at hok
    change (if t.status = .pending then
        Except.ok { s with
          inboxes := (workerName, t.subject ++ "\n" ++ t.description) :: s.inboxes }
      else Except.error AssignError.taskNotPending) = Except.ok s2 at hok
    by_cases hp : t.status = .pending
    · rw [if_pos hp] at hok
      injection hok with h1
      subst h1
      exact ⟨hinv, hwf⟩
    · rw [if_neg hp] at hok
      simp at hok

/-! ## C2: the ownership invariant is preserved by every mutating
operation -/

/-- C2: in every well-formed state satisfying the invariant — owner set
iff in_progress, and each in_progress task owned by exactly one roster
worker whose currentTaskId mirrors it — every mutating operation
preserves it: a successful spawn of a fresh worker preserves the full
invariant, every spawn outcome (including the deliberate
claim-before-pane crash-attribution path the spec reserves for
resume-and-reclaim) preserves the owner-iff-in_progress half, a
Watchdog tick preserves the full invariant, and a successful
assignTask preserves the full invariant. -/
theorem team_ops_preserve_task_invariant (s : TeamState)
    (hwf : WellFormed s) (hinv : invariantHolds s = true) :
    (∀ workerName mode paneResult bThrows t0 pane s2,
      workerName ∉ s.activeWorkers.map ActiveWorker.name →
      spawnWorkerForTask s workerName mode paneResult bThrows t0 = (.ok pane, s2) →
      invariantHolds s2 = true ∧ WellFormed s2) ∧
    (∀ workerName mode paneResult bThrows t0 r s2,
      spawnWorkerForTask s workerName mode paneResult bThrows t0 = (r, s2) →
      s2.tasks.all ownerIffInProgress = true) ∧
    (∀ env, invariantHolds (watchdogTick env s) = true ∧
      WellFormed (watchdogTick env s)) ∧
    (∀ taskId workerName s2, assignTask s taskId workerName = .ok s2 →
      invariantHolds s2 = true ∧ WellFormed s2) := by
  refine ⟨?_, ?_, ?_, ?_⟩
  · intro workerName mode paneResult bThrows t0 pane s2 hfresh hok
    unfold spawnWorkerForTask at hok
    cases hfind : s.tasks.find? (fun u => u.status = .pending) with
    | none =>
      rw [hfind] at hok
      simp at hok
    | some t =>
      rw [hfind] at hok
      cases paneResult with
      | error m => simp at hok
      | ok p2 =>
        injection hok with h1 h2
        subst h2
        by_cases hbr : (mode.isSome && bThrows) = true
        · rw [if_pos hbr]
          exact spawn_core_preserves s workerName mode p2 t0 t
            (spawnWarning workerName t.id :: s.warnings) hwf hinv hfresh hfind
        · rw [if_neg hbr]
          exact spawn_core_preserves s workerName mode p2 t0 t
            s.warnings hwf hinv hfresh hfind
  · intro workerName mode paneResult bThrows t0 r s2 hok
    exact spawn_preserves_ownerIffInProgress s workerName mode paneResult
      bThrows t0 r s2 hinv hok
  · intro env
    refine ⟨?_, tick_preserves_wellFormed env s hwf⟩
    show ((s.tasks.map (tickTask env s.activeWorkers)).all
      (taskInvariant
        ((s.activeWorkers.filter (fun w => env.paneAlive w.paneId)).map
          (tickWorker env)))) = true
    rw [List.all_eq_true]
    intro u' hu'
    obtain ⟨u, hu, rfl⟩ := List.mem_map.mp hu'
    exact tick_preserves_taskInvariant env s hwf (invariantHolds_mem hinv hu)
  · intro taskId workerName s2 hok
    exact assign_preserves s hwf hinv taskId workerName s2 hok

/-- Witness for C2 at the concrete running team state. -/
theorem team_ops_preserve_task_invariant_witness :
    (∀ workerName mode paneResult bThrows t0 pane s2,
      workerName ∉ runningTestState.activeWorkers.map ActiveWorker.name →
      spawnWorkerForTask runningTestState workerName mode paneResult bThrows t0 =
        (.ok pane, s2) →
      invariantHolds s2 = true ∧ WellFormed s2) ∧
    (∀ workerName mode paneResult bThrows t0 r s2,
      spawnWorkerForTask runningTestState workerName mode paneResult bThrows t0 =
        (r, s2) →
      s2.tasks.all ownerIffInProgress = true) ∧
    (∀ env, invariantHolds (watchdogTick env runningTestState) = true ∧
      WellFormed (watchdogTick env runningTestState)) ∧
    (∀ taskId workerName s2, assignTask runningTestState taskId workerName = .ok s2 →
      invariantHolds s2 = true ∧ WellFormed s2) :=
  team_ops_preserve_task_invariant runningTestState (by decide) (by decide)

end OMC
